import Mathlib

/-!
Shallow embedding of the balance-consistency ledger of the borg-el-yousr
admin application.  Money amounts are modelled as exact rationals (the
source uses JS numbers obtained from `parseFloat`), the Firestore
collections as lists in insertion order (`addDoc` appends, `getDocs`
snapshots are read in that order), and the `system/balance` singleton as an
`Option ℚ` (`none` = the document does not exist).  Each operation below is
translated from one submit handler of the source; free-text presence checks
(`trim`) are kept where the handler performs them.
-/

namespace Borg

/-- A record of the `monthlyPayments` collection
(MonthlyPaymentModal.handlePaymentSubmit writes these). -/
structure MonthlyPayment where
  id : String
  floorId : String
  month : String
  amountPaid : ℚ
  paymentDate : String
  remainingAmount : ℚ
  isComplete : Bool
  deriving DecidableEq, Repr

/-- A record of the `eventPayments` collection
(MaintenancePaymentModal.handlePaymentSubmit writes these). -/
structure EventPayment where
  id : String
  eventId : String
  floorId : String
  amountPaid : ℚ
  paymentDate : String
  remainingAmount : ℚ
  isComplete : Bool
  deriving DecidableEq, Repr

/-- Expense type tag (`"monthly" | "event"` in ExpenseModal). -/
inductive ExpenseType where
  | monthly
  | event
  deriving DecidableEq, Repr

/-- Payment method tag (`"cash" | "bank"` in ExpenseModal). -/
inductive PaidThrough where
  | cash
  | bank
  deriving DecidableEq, Repr

/-- A record of the `expenses` collection (ExpenseModal.handleExpenseSubmit
writes these; `eventId` is `null` for monthly expenses). -/
structure Expense where
  id : String
  etype : ExpenseType
  eventId : Option String
  description : String
  amount : ℚ
  date : String
  paidThrough : PaidThrough
  deriving DecidableEq, Repr

/-- A record of the `events` collection (NewMaintenanceModal writes these;
`status` is the string `"open"` or `"closed"` as in the source). -/
structure MaintenanceEvent where
  id : String
  eventName_ar : String
  description : String
  totalCost : ℚ
  costPerFloor : ℚ
  date : String
  status : String
  deriving DecidableEq, Repr

/-- The document store as seen by the ledger: the five collections, the
`system/balance` singleton (`none` when the document does not exist) and the
`system/monthlyDuePayment.required` config (the source folds a missing
config into `0` via `|| 0`). `floors` only contributes its element count
and the floor ids. -/
structure LedgerState where
  floors : List String
  events : List MaintenanceEvent
  monthlyPayments : List MonthlyPayment
  eventPayments : List EventPayment
  expenses : List Expense
  balance : Option ℚ
  monthlyRequired : ℚ
  deriving DecidableEq, Repr

/-- Update the first element of a list satisfying `p` (Firestore
`updateDoc`/`batch.update` addressed by the unique document id). -/
def updateFirst (p : α → Bool) (f : α → α) : List α → List α
  | [] => []
  | x :: xs => if p x then f x :: xs else x :: updateFirst p f xs

/-- Total of `amountPaid` over all payment records, both collections. -/
def paymentsTotal (s : LedgerState) : ℚ :=
  (s.monthlyPayments.map MonthlyPayment.amountPaid).sum
    + (s.eventPayments.map EventPayment.amountPaid).sum

/-- Total of `amount` over all expense records. -/
def expensesTotal (s : LedgerState) : ℚ :=
  (s.expenses.map Expense.amount).sum

/-- `Σ(live payment amounts) − Σ(live expense amounts)`. -/
def liveSum (s : LedgerState) : ℚ :=
  paymentsTotal s - expensesTotal s

/-- The stored balance equals the replayed sum of the live records. -/
def balanceConsistent (s : LedgerState) : Prop :=
  s.balance = some (liveSum s)

instance : DecidablePred balanceConsistent := fun s =>
  inferInstanceAs (Decidable (s.balance = some (liveSum s)))

/-- MonthlyPaymentModal.handlePaymentSubmit: validate the amount against the
full configured monthly due, append the record, then credit the balance
only when the balance document exists. -/
def handlePaymentSubmitMonthly (s : LedgerState) (pid floorId month : String)
    (amount : ℚ) (now : String) : LedgerState :=
  if floorId = "" then s
  else if amount ≤ 0 then s
  else if amount > s.monthlyRequired then s
  else
    let remainingAmount := s.monthlyRequired - amount
    let isComplete := decide (remainingAmount ≤ 0)
    let r : MonthlyPayment :=
      ⟨pid, floorId, month, amount, now, remainingAmount, isComplete⟩
    { s with
      monthlyPayments := s.monthlyPayments ++ [r]
      balance := s.balance.map (fun b => b + amount) }

/-- MaintenancePaymentModal.getRequiredAmount: the selected event's
`costPerFloor`, or `0` when the event is not found. -/
def getRequiredAmount (s : LedgerState) (eventId : String) : ℚ :=
  match s.events.find? (fun e => e.id == eventId) with
  | some e => e.costPerFloor
  | none => 0

/-- MaintenancePaymentModal.getRemainingAmount: the `remainingAmount` of the
first payment record found for the `(eventId, floorId)` key, else the
required amount. -/
def getRemainingAmount (s : LedgerState) (eventId floorId : String) : ℚ :=
  match s.eventPayments.find? (fun p => p.eventId == eventId && p.floorId == floorId) with
  | some p => p.remainingAmount
  | none => getRequiredAmount s eventId

/-- MaintenancePaymentModal.handlePaymentSubmit: validate against
`getRemainingAmount`, append the record, credit the balance if the balance
document exists. -/
def handlePaymentSubmitEvent (s : LedgerState) (pid eventId floorId : String)
    (amount : ℚ) (now : String) : LedgerState :=
  if eventId = "" ∨ floorId = "" then s
  else if amount ≤ 0 then s
  else
    let remainingAmount := getRemainingAmount s eventId floorId
    if amount > remainingAmount then s
    else
      let newRemainingAmount := remainingAmount - amount
      let isComplete := decide (newRemainingAmount ≤ 0)
      let r : EventPayment :=
        ⟨pid, eventId, floorId, amount, now, newRemainingAmount, isComplete⟩
      { s with
        eventPayments := s.eventPayments ++ [r]
        balance := s.balance.map (fun b => b + amount) }

/-- ExpenseModal.handleDetailsSubmit followed by handleExpenseSubmit:
validate the fields and the amount against the loaded `totalBalance`
(a missing balance document reads as `0` via `?.totalBalance || 0`),
append the expense record, then debit the balance only when the balance
document exists. -/
def handleExpenseSubmit (s : LedgerState) (eid : String) (etype : ExpenseType)
    (selectedEvent description : String) (amount : ℚ)
    (paymentMethod : PaidThrough) (now : String) : LedgerState :=
  if description.trim = "" then s
  else if etype = ExpenseType.event ∧ selectedEvent = "" then s
  else if amount ≤ 0 then s
  else if amount > s.balance.getD 0 then s
  else
    let r : Expense :=
      ⟨eid, etype,
        if etype = ExpenseType.event then some selectedEvent else none,
        description.trim, amount, now, paymentMethod⟩
    { s with
      expenses := s.expenses ++ [r]
      balance := s.balance.map (fun b => b - amount) }

/-- Which payment collection a ManagePaymentsModal row lives in. -/
inductive PaymentColl where
  | monthlyPayments
  | eventPayments
  deriving DecidableEq, Repr

/-- ManagePaymentsModal.savePayment: update `amountPaid` (and `month` for a
monthly payment when a month was picked) on the record, and apply
`newAmount − originalAmount` to the balance, in one write batch.  The batch
touches the balance document, so a missing balance document fails the whole
batch and nothing changes; an unknown payment id throws before the batch. -/
def savePayment (s : LedgerState) (coll : PaymentColl) (pid : String)
    (newAmount : ℚ) (newMonth : Option String) : LedgerState :=
  if newAmount ≤ 0 then s
  else
    match s.balance with
    | none => s
    | some b =>
      match coll with
      | PaymentColl.monthlyPayments =>
        match s.monthlyPayments.find? (fun p => p.id == pid) with
        | none => s
        | some old =>
          { s with
            monthlyPayments :=
              updateFirst (fun p => p.id == pid)
                (fun p =>
                  { p with
                    amountPaid := newAmount
                    month := match newMonth with
                      | some m => m
                      | none => p.month })
                s.monthlyPayments
            balance := some (b + (newAmount - old.amountPaid)) }
      | PaymentColl.eventPayments =>
        match s.eventPayments.find? (fun p => p.id == pid) with
        | none => s
        | some old =>
          { s with
            eventPayments :=
              updateFirst (fun p => p.id == pid)
                (fun p => { p with amountPaid := newAmount })
                s.eventPayments
            balance := some (b + (newAmount - old.amountPaid)) }

/-- ManagePaymentsModal.deletePayment: delete the record and apply
`−amountPaid` to the balance in one write batch (so a missing balance
document fails the whole batch). -/
def deletePayment (s : LedgerState) (coll : PaymentColl) (pid : String) :
    LedgerState :=
  match s.balance with
  | none => s
  | some b =>
    match coll with
    | PaymentColl.monthlyPayments =>
      match s.monthlyPayments.find? (fun p => p.id == pid) with
      | none => s
      | some old =>
        { s with
          monthlyPayments := s.monthlyPayments.eraseP (fun p => p.id == pid)
          balance := some (b - old.amountPaid) }
    | PaymentColl.eventPayments =>
      match s.eventPayments.find? (fun p => p.id == pid) with
      | none => s
      | some old =>
        { s with
          eventPayments := s.eventPayments.eraseP (fun p => p.id == pid)
          balance := some (b - old.amountPaid) }

/-- ManageMaintenanceModal.deleteEvent: sum the event's payments and its
expenses, delete those records and the event itself, and write
`balance − Σpayments + Σexpenses`.  The deletes are issued before the
balance write, so with a missing balance document the records are gone and
the balance stays missing. -/
def deleteEvent (s : LedgerState) (eventId : String) : LedgerState :=
  let totalPaymentsAmount :=
    ((s.eventPayments.filter (fun p => p.eventId == eventId)).map
      EventPayment.amountPaid).sum
  let totalExpensesAmount :=
    ((s.expenses.filter (fun e => e.eventId == some eventId)).map
      Expense.amount).sum
  { s with
    eventPayments := s.eventPayments.filter (fun p => !(p.eventId == eventId))
    expenses := s.expenses.filter (fun e => !(e.eventId == some eventId))
    events := s.events.filter (fun e => !(e.id == eventId))
    balance :=
      s.balance.map (fun b => b - totalPaymentsAmount + totalExpensesAmount) }

/-- NewMaintenanceModal.calculateCostPerFloor: `0` when there are no floors,
else `Math.ceil(total / floors.length)`. -/
def calculateCostPerFloor (floorsCount : ℕ) (total : ℚ) : ℚ :=
  if floorsCount = 0 then 0 else (⌈total / (floorsCount : ℚ)⌉ : ℚ)

/-- NewMaintenanceModal.handleDetailsSubmit + handleCreateEvent: validate
the fields, compute `costPerFloor` from the current floor count, and append
the event with status `"open"`. -/
def handleCreateEvent (s : LedgerState) (eid eventName description : String)
    (totalCost : ℚ) (date : String) : LedgerState :=
  if eventName.trim = "" ∨ description.trim = "" then s
  else if totalCost ≤ 0 then s
  else
    let costPerFloor := calculateCostPerFloor s.floors.length totalCost
    { s with
      events := s.events ++
        [⟨eid, eventName.trim, description.trim, totalCost, costPerFloor,
          date, "open"⟩] }

/-- ManageMaintenanceModal.saveEvent's cost computation:
`Math.ceil(totalCost / floorsCount)` with no zero-floor guard.  JS yields
`Infinity` at `floorsCount = 0`, which is outside the money domain; the
rational convention `x / 0 = 0` stands in for it and no theorem below
relies on the zero-floor case of this function. -/
def saveEventCostPerFloor (floorsCount : ℕ) (totalCost : ℚ) : ℚ :=
  (⌈totalCost / (floorsCount : ℚ)⌉ : ℚ)

/-- ManageMaintenanceModal.saveEvent: validate, recompute `costPerFloor`
from the current floor count, and update the event record in place. -/
def saveEvent (s : LedgerState) (eventId eventName description : String)
    (totalCost : ℚ) (status : String) : LedgerState :=
  if eventName.trim = "" ∨ description.trim = "" then s
  else if totalCost ≤ 0 then s
  else
    let costPerFloor := saveEventCostPerFloor s.floors.length totalCost
    { s with
      events :=
        updateFirst (fun e => e.id == eventId)
          (fun e =>
            { e with
              eventName_ar := eventName.trim
              description := description.trim
              totalCost := totalCost
              costPerFloor := costPerFloor
              status := status })
          s.events }

/-- The ledger operations of the replay property: payment creation (both
kinds), expense creation, payment edit, payment deletion, event cascading
deletion. -/
inductive Op where
  | monthlyPay (pid floorId month : String) (amount : ℚ) (now : String)
  | eventPay (pid eventId floorId : String) (amount : ℚ) (now : String)
  | expense (eid : String) (etype : ExpenseType)
      (selectedEvent description : String) (amount : ℚ)
      (paymentMethod : PaidThrough) (now : String)
  | editPayment (coll : PaymentColl) (pid : String) (newAmount : ℚ)
      (newMonth : Option String)
  | delPayment (coll : PaymentColl) (pid : String)
  | delEvent (eventId : String)
  deriving DecidableEq, Repr

/-- Dispatch one operation to its submit handler. -/
def applyOp (s : LedgerState) : Op → LedgerState
  | Op.monthlyPay pid floorId month amount now =>
      handlePaymentSubmitMonthly s pid floorId month amount now
  | Op.eventPay pid eventId floorId amount now =>
      handlePaymentSubmitEvent s pid eventId floorId amount now
  | Op.expense eid etype selectedEvent description amount paymentMethod now =>
      handleExpenseSubmit s eid etype selectedEvent description amount
        paymentMethod now
  | Op.editPayment coll pid newAmount newMonth =>
      savePayment s coll pid newAmount newMonth
  | Op.delPayment coll pid => deletePayment s coll pid
  | Op.delEvent eventId => deleteEvent s eventId

/-- Replay a sequence of operations. -/
def applyOps (s : LedgerState) (ops : List Op) : LedgerState :=
  ops.foldl applyOp s

/-- A store with empty collections, an existing balance document holding
`0`, and a configured monthly due. -/
def initState (required : ℚ) : LedgerState :=
  { floors := []
    events := []
    monthlyPayments := []
    eventPayments := []
    expenses := []
    balance := some 0
    monthlyRequired := required }

/-- Sum of `amountPaid` over the monthly payment records of one
`(floorId, month)` key. -/
def monthlyPaidFor (s : LedgerState) (floorId month : String) : ℚ :=
  ((s.monthlyPayments.filter
      (fun p => p.floorId == floorId && p.month == month)).map
    MonthlyPayment.amountPaid).sum

/-- Sum of `amountPaid` over the event payment records of one
`(eventId, floorId)` key. -/
def eventPaidFor (s : LedgerState) (eventId floorId : String) : ℚ :=
  ((s.eventPayments.filter
      (fun p => p.eventId == eventId && p.floorId == floorId)).map
    EventPayment.amountPaid).sum

/-- The most recently written monthly payment record of a key. -/
def lastMonthlyFor (s : LedgerState) (floorId month : String) :
    Option MonthlyPayment :=
  (s.monthlyPayments.filter
    (fun p => p.floorId == floorId && p.month == month)).getLast?

/-- The most recently written event payment record of a key. -/
def lastEventPaymentFor (s : LedgerState) (eventId floorId : String) :
    Option EventPayment :=
  (s.eventPayments.filter
    (fun p => p.eventId == eventId && p.floorId == floorId)).getLast?

/-! ### List bookkeeping lemmas -/

theorem sum_map_updateFirst {α : Type} (p : α → Bool) (f : α → α) (g : α → ℚ) :
    ∀ (l : List α) (x : α), l.find? p = some x →
      ((updateFirst p f l).map g).sum = (l.map g).sum - g x + g (f x)
  | [], x, h => by simp at h
  | y :: l, x, h => by
    rcases hp : p y with hf | ht
    · rw [List.find?_cons_of_neg _ (by simp [hp])] at h
      simp only [updateFirst, hp, if_neg, List.map_cons, List.sum_cons, Bool.false_eq_true,
        if_false]
      rw [sum_map_updateFirst p f g l x h]
      ring
    · rw [List.find?_cons_of_pos _ hp] at h
      cases h
      simp only [updateFirst, hp, if_true, List.map_cons, List.sum_cons]
      ring

theorem sum_map_eraseP {α : Type} (p : α → Bool) (g : α → ℚ) :
    ∀ (l : List α) (x : α), l.find? p = some x →
      ((l.eraseP p).map g).sum = (l.map g).sum - g x
  | [], x, h => by simp at h
  | y :: l, x, h => by
    rcases hp : p y with hf | ht
    · rw [List.find?_cons_of_neg _ (by simp [hp])] at h
      rw [List.eraseP_cons_of_neg (by simp [hp])]
      simp only [List.map_cons, List.sum_cons]
      rw [sum_map_eraseP p g l x h]
      ring
    · rw [List.find?_cons_of_pos _ hp] at h
      cases h
      rw [List.eraseP_cons_of_pos hp]
      simp only [List.map_cons, List.sum_cons]
      ring

theorem sum_map_filter_split {α : Type} (p : α → Bool) (g : α → ℚ) (l : List α) :
    (l.map g).sum
      = ((l.filter p).map g).sum + ((l.filter (fun a => !p a)).map g).sum := by
  induction l with
  | nil => simp
  | cons y l ih =>
    rcases hp : p y with hf | ht
    · simp only [List.filter_cons, hp, Bool.not_false, if_neg, List.map_cons, List.sum_cons,
        Bool.false_eq_true, if_false, if_true]
      rw [ih]
      ring
    · simp only [List.filter_cons, hp, Bool.not_true, if_true, List.map_cons, List.sum_cons,
        Bool.false_eq_true, if_false]
      rw [ih]
      ring

theorem find?_append_cons {α : Type} (p : α → Bool) (a : List α) (x : α)
    (c : List α) (ha : ∀ y ∈ a, p y = false) (hx : p x = true) :
    (a ++ x :: c).find? p = some x := by
  induction a with
  | nil => simpa using List.find?_cons_of_pos c hx
  | cons y a ih =>
    rw [List.cons_append, List.find?_cons_of_neg _ (by simp [ha y (by simp)])]
    exact ih fun z hz => ha z (by simp [hz])

theorem updateFirst_append_cons {α : Type} (p : α → Bool) (f : α → α)
    (a : List α) (x : α) (c : List α) (ha : ∀ y ∈ a, p y = false)
    (hx : p x = true) :
    updateFirst p f (a ++ x :: c) = a ++ f x :: c := by
  induction a with
  | nil => simp [updateFirst, hx]
  | cons y a ih =>
    rw [List.cons_append, updateFirst, if_neg (by simp [ha y (by simp)]),
      ih fun z hz => ha z (by simp [hz])]
    rfl

/-! ### Invariant preservation -/

/-- Every ledger operation preserves `balanceConsistent`: the balance delta
written by each handler matches the record change it persists. -/
theorem applyOp_balanceConsistent (s : LedgerState) (op : Op)
    (h : balanceConsistent s) : balanceConsistent (applyOp s op) := by
  cases op with
  | monthlyPay pid floorId month amount now =>
    simp only [applyOp, handlePaymentSubmitMonthly]
    split_ifs with h1 h2 h3 <;> try exact h
    simp only [balanceConsistent] at h
    simp only [balanceConsistent, liveSum, paymentsTotal, expensesTotal, h,
      Option.map_some', List.map_append, List.sum_append, List.map_cons,
      List.sum_cons, List.map_nil, List.sum_nil, Option.some.injEq]
    ring
  | eventPay pid eventId floorId amount now =>
    simp only [applyOp, handlePaymentSubmitEvent]
    split_ifs with h1 h2 h3 <;> try exact h
    simp only [balanceConsistent] at h
    simp only [balanceConsistent, liveSum, paymentsTotal, expensesTotal, h,
      Option.map_some', List.map_append, List.sum_append, List.map_cons,
      List.sum_cons, List.map_nil, List.sum_nil, Option.some.injEq]
    ring
  | expense eid etype selectedEvent description amount pm now =>
    simp only [applyOp, handleExpenseSubmit]
    split_ifs with h1 h2 h3 h4 h5 <;> try exact h
    all_goals
      simp only [balanceConsistent] at h
      simp only [balanceConsistent, liveSum, paymentsTotal, expensesTotal, h,
        Option.map_some', List.map_append, List.sum_append, List.map_cons,
        List.sum_cons, List.map_nil, List.sum_nil, Option.some.injEq]
      ring
  | editPayment coll pid newAmount newMonth =>
    by_cases h1 : newAmount ≤ 0
    · simpa only [applyOp, savePayment, if_pos h1] using h
    · cases hb : s.balance with
      | none => simpa only [applyOp, savePayment, if_neg h1, hb] using h
      | some b =>
        have hb2 : b = liveSum s := by
          have h' := h
          rw [balanceConsistent, hb] at h'
          exact Option.some.inj h'
        subst hb2
        cases coll with
        | monthlyPayments =>
          cases hf : s.monthlyPayments.find? (fun p => p.id == pid) with
          | none => simpa only [applyOp, savePayment, if_neg h1, hb, hf] using h
          | some old =>
            have hs := sum_map_updateFirst (fun p => p.id == pid)
              (fun p =>
                { p with
                  amountPaid := newAmount
                  month := (match newMonth with | some m => m | none => p.month) })
              MonthlyPayment.amountPaid s.monthlyPayments old hf
            simp only [applyOp, savePayment, if_neg h1, hb, hf, balanceConsistent,
              liveSum, paymentsTotal, expensesTotal, Option.some.injEq]
            rw [hs]
            ring
        | eventPayments =>
          cases hf : s.eventPayments.find? (fun p => p.id == pid) with
          | none => simpa only [applyOp, savePayment, if_neg h1, hb, hf] using h
          | some old =>
            have hs := sum_map_updateFirst (fun p => p.id == pid)
              (fun p => { p with amountPaid := newAmount })
              EventPayment.amountPaid s.eventPayments old hf
            simp only [applyOp, savePayment, if_neg h1, hb, hf, balanceConsistent,
              liveSum, paymentsTotal, expensesTotal, Option.some.injEq]
            rw [hs]
            ring
  | delPayment coll pid =>
    cases hb : s.balance with
    | none => simpa only [applyOp, deletePayment, hb] using h
    | some b =>
      have hb2 : b = liveSum s := by
        have h' := h
        rw [balanceConsistent, hb] at h'
        exact Option.some.inj h'
      subst hb2
      cases coll with
      | monthlyPayments =>
        cases hf : s.monthlyPayments.find? (fun p => p.id == pid) with
        | none => simpa only [applyOp, deletePayment, hb, hf] using h
        | some old =>
          have hs := sum_map_eraseP (fun p => p.id == pid)
            MonthlyPayment.amountPaid s.monthlyPayments old hf
          simp only [applyOp, deletePayment, hb, hf, balanceConsistent, liveSum,
            paymentsTotal, expensesTotal, Option.some.injEq]
          rw [hs]
          ring
      | eventPayments =>
        cases hf : s.eventPayments.find? (fun p => p.id == pid) with
        | none => simpa only [applyOp, deletePayment, hb, hf] using h
        | some old =>
          have hs := sum_map_eraseP (fun p => p.id == pid)
            EventPayment.amountPaid s.eventPayments old hf
          simp only [applyOp, deletePayment, hb, hf, balanceConsistent, liveSum,
            paymentsTotal, expensesTotal, Option.some.injEq]
          rw [hs]
          ring
  | delEvent eventId =>
    simp only [balanceConsistent] at h
    have hp := sum_map_filter_split (fun p => p.eventId == eventId)
      EventPayment.amountPaid s.eventPayments
    have hx := sum_map_filter_split (fun e => e.eventId == some eventId)
      Expense.amount s.expenses
    simp only [applyOp, deleteEvent, balanceConsistent, liveSum, paymentsTotal,
      expensesTotal, h, Option.map_some', Option.some.injEq]
    linarith [hp, hx]

/-! ### C1: balance reconstruction -/

/-- C1.  For every sequence of operations drawn from monthly-payment
creation, event-payment creation, expense creation, payment edit, payment
deletion, and event cascading deletion, starting from an existing balance
document whose value matches the live records, the stored `totalBalance`
after the sequence equals `Σ(live payment amounts) − Σ(live expense
amounts)` at their current amounts. -/
theorem balance_reconstruction (ops : List Op) (s : LedgerState)
    (h : balanceConsistent s) :
    (applyOps s ops).balance = some (liveSum (applyOps s ops)) := by
  induction ops generalizing s with
  | nil => exact h
  | cons op ops ih => exact ih (applyOp s op) (applyOp_balanceConsistent s op h)

/-- A demonstration store: one open event costing 1000 at 500 per floor,
two floors, monthly due 500, empty record collections, balance 0. -/
def demoState : LedgerState :=
  { floors := ["fl1", "fl2"]
    events := [⟨"ev1", "n", "d", 1000, 500, "2024-01", "open"⟩]
    monthlyPayments := []
    eventPayments := []
    expenses := []
    balance := some 0
    monthlyRequired := 500 }

/-- A demonstration run exercising every operation kind. -/
def demoOps : List Op :=
  [Op.monthlyPay "p1" "fl1" "2024-01" 200 "t1",
   Op.eventPay "q1" "ev1" "fl1" 300 "t2",
   Op.expense "x1" ExpenseType.monthly "" "water" 100 PaidThrough.cash "t3",
   Op.expense "x2" ExpenseType.event "ev1" "paint" 150 PaidThrough.bank "t4",
   Op.editPayment PaymentColl.monthlyPayments "p1" 350 (some "2024-02"),
   Op.delPayment PaymentColl.eventPayments "q1",
   Op.delEvent "ev1"]

/-- Witness for C1 on a concrete run exercising every operation kind. -/
theorem balance_reconstruction_witness :
    balanceConsistent demoState
      ∧ (applyOps demoState demoOps).balance
          = some (liveSum (applyOps demoState demoOps)) :=
  ⟨by with_unfolding_all decide,
    balance_reconstruction demoOps demoState (by with_unfolding_all decide)⟩

/-! ### C2: overpayment validation -/

/-- The C2 scenario: monthly due 500, two prior monthly payments of 200
each for floor `fl1` in month `2024-01`, so 100 remains due. -/
def overpayState : LedgerState :=
  applyOps { initState 500 with floors := ["fl1"] }
    [Op.monthlyPay "p1" "fl1" "2024-01" 200 "t1",
     Op.monthlyPay "p2" "fl1" "2024-01" 200 "t2"]

set_option maxRecDepth 8000 in
/-- C2 counterexample.  With required 500 and two prior payments of 200
each (so 100 remaining), a monthly submission of 150 is NOT rejected — the
record is persisted (the collection grows from 2 to 3 records) — and a
submission of 100 is stored with `isComplete = false`, not `true`: the
monthly handler validates only against the full required amount and
ignores prior payments. -/
theorem no_overpayment_counterexample :
    monthlyPaidFor overpayState "fl1" "2024-01" = 400
      ∧ overpayState.monthlyRequired = 500
      ∧ overpayState.monthlyPayments.length = 2
      ∧ (handlePaymentSubmitMonthly overpayState "p3" "fl1" "2024-01" 150
          "t3").monthlyPayments.length = 3
      ∧ (lastMonthlyFor
            (handlePaymentSubmitMonthly overpayState "p3" "fl1" "2024-01" 100 "t3")
            "fl1" "2024-01").map MonthlyPayment.isComplete = some false := by
  with_unfolding_all decide

/-- C2 amended.  Payment creation rejects, persisting nothing and leaving
the state unchanged, any amount exceeding its validation ceiling — the full
configured monthly due for monthly payments (prior payments are ignored),
and `getRemainingAmount` (read off the first stored record of the key) for
event payments — and any accepted submission appends a record whose
`isComplete` is computed from that same ceiling minus the amount. -/
theorem payment_validation_ceilings (s : LedgerState)
    (pid floorId month eventId : String) (amount : ℚ) (now : String) :
    (amount > s.monthlyRequired →
        handlePaymentSubmitMonthly s pid floorId month amount now = s)
      ∧ (amount > getRemainingAmount s eventId floorId →
        handlePaymentSubmitEvent s pid eventId floorId amount now = s)
      ∧ (floorId ≠ "" → 0 < amount → amount ≤ s.monthlyRequired →
        (handlePaymentSubmitMonthly s pid floorId month amount now).monthlyPayments
          = s.monthlyPayments ++
            [⟨pid, floorId, month, amount, now, s.monthlyRequired - amount,
              decide (s.monthlyRequired - amount ≤ 0)⟩])
      ∧ (eventId ≠ "" → floorId ≠ "" → 0 < amount →
          amount ≤ getRemainingAmount s eventId floorId →
        (handlePaymentSubmitEvent s pid eventId floorId amount now).eventPayments
          = s.eventPayments ++
            [⟨pid, eventId, floorId, amount, now,
              getRemainingAmount s eventId floorId - amount,
              decide (getRemainingAmount s eventId floorId - amount ≤ 0)⟩]) := by
  refine ⟨?_, ?_, ?_, ?_⟩
  · intro hgt
    simp only [handlePaymentSubmitMonthly]
    split_ifs <;> rfl
  · intro hgt
    simp only [handlePaymentSubmitEvent]
    split_ifs <;> rfl
  · intro hf hpos hle
    simp only [handlePaymentSubmitMonthly, if_neg hf, if_neg (not_le.mpr hpos),
      if_neg (not_lt.mpr hle)]
  · intro he hf hpos hle
    simp only [handlePaymentSubmitEvent, if_neg (not_or.mpr ⟨he, hf⟩),
      if_neg (not_le.mpr hpos), if_neg (not_lt.mpr hle)]

/-- Witness for the amended C2 on the concrete scenario: 600 exceeds the
monthly ceiling of 500 and is rejected outright; 100 is accepted and
appended with remaining 400. -/
theorem payment_validation_ceilings_witness :
    handlePaymentSubmitMonthly overpayState "p3" "fl1" "2024-01" 600 "t3"
        = overpayState
      ∧ (handlePaymentSubmitMonthly overpayState "p3" "fl1" "2024-01" 100
            "t3").monthlyPayments
          = overpayState.monthlyPayments ++
            [⟨"p3", "fl1", "2024-01", 100, "t3",
              overpayState.monthlyRequired - 100,
              decide (overpayState.monthlyRequired - 100 ≤ 0)⟩] :=
  ⟨(payment_validation_ceilings overpayState "p3" "fl1" "2024-01" "ev1" 600 "t3").1
      (by with_unfolding_all decide),
    (payment_validation_ceilings overpayState "p3" "fl1" "2024-01" "ev1" 100 "t3").2.2.1
      (by with_unfolding_all decide) (by with_unfolding_all decide)
      (by with_unfolding_all decide)⟩

/-! ### C3: remaining-amount reconstruction -/

/-- The C3 scenario: monthly due 500, a payment of 200 then one of 100 for
the same `(floor, month)` key. -/
def staleRemainingState : LedgerState :=
  applyOps (initState 500)
    [Op.monthlyPay "p1" "f1" "2024-01" 200 "t1",
     Op.monthlyPay "p2" "f1" "2024-01" 100 "t2"]

set_option maxRecDepth 8000 in
/-- C3 counterexample.  After payments of 200 and 100 against a 500 due,
the most recently written record stores `remainingAmount = 400` (500 − its
own 100), not `required − Σ amountPaid = 200`: the monthly handler never
reads prior payments when computing the remaining amount. -/
theorem remaining_reconstruction_counterexample :
    (lastMonthlyFor staleRemainingState "f1" "2024-01").map
        MonthlyPayment.remainingAmount = some 400
      ∧ staleRemainingState.monthlyRequired
          - monthlyPaidFor staleRemainingState "f1" "2024-01" = 200
      ∧ ¬ ((lastMonthlyFor staleRemainingState "f1" "2024-01").map
            MonthlyPayment.remainingAmount
          = some (staleRemainingState.monthlyRequired
              - monthlyPaidFor staleRemainingState "f1" "2024-01")) := by
  with_unfolding_all decide

/-- C3 amended.  After an accepted payment, the most recently written
record of the key stores `remainingAmount` equal to the handler's ceiling
minus this payment's own amount: the configured monthly due for monthly
payments (prior payments ignored), and `getRemainingAmount` — read off the
first stored record of the key, or `costPerFloor` when none exists — for
event payments. -/
theorem remaining_of_new_record (s : LedgerState)
    (pid floorId month eventId : String) (amount : ℚ) (now : String)
    (hpos : 0 < amount) :
    (floorId ≠ "" → amount ≤ s.monthlyRequired →
      (lastMonthlyFor (handlePaymentSubmitMonthly s pid floorId month amount now)
          floorId month).map MonthlyPayment.remainingAmount
        = some (s.monthlyRequired - amount))
    ∧ (eventId ≠ "" → floorId ≠ "" →
        amount ≤ getRemainingAmount s eventId floorId →
      (lastEventPaymentFor (handlePaymentSubmitEvent s pid eventId floorId amount now)
          eventId floorId).map EventPayment.remainingAmount
        = some (getRemainingAmount s eventId floorId - amount)) := by
  constructor
  · intro hf hle
    simp only [handlePaymentSubmitMonthly, if_neg hf, if_neg (not_le.mpr hpos),
      if_neg (not_lt.mpr hle), lastMonthlyFor, List.filter_append]
    simp [List.getLast?_concat]
  · intro he hf hle
    simp only [handlePaymentSubmitEvent, if_neg (not_or.mpr ⟨he, hf⟩),
      if_neg (not_le.mpr hpos), if_neg (not_lt.mpr hle), lastEventPaymentFor,
      List.filter_append]
    simp [List.getLast?_concat]

/-- Witness for the amended C3: a first monthly payment of 200 stores
remaining 300, and a first event payment of 300 against a 500 cost per
floor stores remaining 200. -/
theorem remaining_of_new_record_witness :
    (lastMonthlyFor (handlePaymentSubmitMonthly demoState "p1" "fl1" "2024-01" 200 "t1")
        "fl1" "2024-01").map MonthlyPayment.remainingAmount
        = some (demoState.monthlyRequired - 200)
    ∧ (lastEventPaymentFor (handlePaymentSubmitEvent demoState "q1" "ev1" "fl1" 300 "t2")
        "ev1" "fl1").map EventPayment.remainingAmount
        = some (getRemainingAmount demoState "ev1" "fl1" - 300) :=
  ⟨(remaining_of_new_record demoState "p1" "fl1" "2024-01" "ev1" 200 "t1"
        (by norm_num)).1
      (by with_unfolding_all decide) (by with_unfolding_all decide),
    (remaining_of_new_record demoState "q1" "fl1" "2024-01" "ev1" 300 "t2"
        (by norm_num)).2
      (by with_unfolding_all decide) (by with_unfolding_all decide)
      (by with_unfolding_all decide)⟩


/-! ### C4: cascading delete -/

/-- Two events with payments and expenses, one monthly payment, one monthly
expense, balance 500; event `ev1` has payments summing 400 and an expense
of 150. -/
def cascadeState : LedgerState :=
  { floors := ["fl1", "fl2"]
    events := [⟨"ev1", "n1", "d1", 800, 400, "2024-01", "open"⟩,
               ⟨"ev2", "n2", "d2", 600, 300, "2024-02", "open"⟩]
    monthlyPayments := [⟨"p1", "fl1", "2024-01", 200, "t0", 300, false⟩]
    eventPayments := [⟨"q1", "ev1", "fl1", 400, "t1", 0, true⟩,
                      ⟨"q2", "ev2", "fl1", 100, "t2", 200, false⟩]
    expenses := [⟨"x1", ExpenseType.event, some "ev1", "paint", 150, "t3",
                   PaidThrough.cash⟩,
                 ⟨"x2", ExpenseType.monthly, none, "water", 50, "t4",
                   PaidThrough.cash⟩]
    balance := some 500
    monthlyRequired := 500 }

/-- C4.  Deleting an event changes the balance by exactly
`−Σ(its payments) + Σ(its expenses)`, removes exactly its payment and
expense records together with the event record, and leaves the monthly
payments and every record of other events (and monthly expenses, whose
`eventId` is null) unchanged. -/
theorem deleteEvent_exact_reversal (s : LedgerState) (eventId : String) (b : ℚ)
    (hb : s.balance = some b) :
    (deleteEvent s eventId).balance
        = some (b
            - ((s.eventPayments.filter (fun p => p.eventId == eventId)).map
                EventPayment.amountPaid).sum
            + ((s.expenses.filter (fun e => e.eventId == some eventId)).map
                Expense.amount).sum)
      ∧ (deleteEvent s eventId).eventPayments
          = s.eventPayments.filter (fun p => !(p.eventId == eventId))
      ∧ (deleteEvent s eventId).expenses
          = s.expenses.filter (fun e => !(e.eventId == some eventId))
      ∧ (deleteEvent s eventId).events
          = s.events.filter (fun e => !(e.id == eventId))
      ∧ (deleteEvent s eventId).monthlyPayments = s.monthlyPayments := by
  refine ⟨?_, rfl, rfl, rfl, rfl⟩
  simp [deleteEvent, hb]

set_option maxRecDepth 8000 in
/-- Witness for C4: deleting `ev1` from the concrete store. -/
theorem deleteEvent_exact_reversal_witness :
    (deleteEvent cascadeState "ev1").balance
        = some (500
            - ((cascadeState.eventPayments.filter (fun p => p.eventId == "ev1")).map
                EventPayment.amountPaid).sum
            + ((cascadeState.expenses.filter (fun e => e.eventId == some "ev1")).map
                Expense.amount).sum)
      ∧ (deleteEvent cascadeState "ev1").eventPayments
          = cascadeState.eventPayments.filter (fun p => !(p.eventId == "ev1"))
      ∧ (deleteEvent cascadeState "ev1").expenses
          = cascadeState.expenses.filter (fun e => !(e.eventId == some "ev1"))
      ∧ (deleteEvent cascadeState "ev1").events
          = cascadeState.events.filter (fun e => !(e.id == "ev1"))
      ∧ (deleteEvent cascadeState "ev1").monthlyPayments
          = cascadeState.monthlyPayments :=
  deleteEvent_exact_reversal cascadeState "ev1" 500 (by with_unfolding_all decide)

/-! ### C5: edit/delete balance deltas -/

/-- The persisted `amountPaid` of the payment addressed by a
ManagePaymentsModal row (`originalAmount` is loaded from this record). -/
def oldAmountOf (s : LedgerState) (coll : PaymentColl) (pid : String) :
    Option ℚ :=
  match coll with
  | PaymentColl.monthlyPayments =>
      (s.monthlyPayments.find? (fun p => p.id == pid)).map
        MonthlyPayment.amountPaid
  | PaymentColl.eventPayments =>
      (s.eventPayments.find? (fun p => p.id == pid)).map EventPayment.amountPaid

/-- C5.  Editing a payment (monthly or event) from persisted amount `old`
to `new` changes the balance by exactly `new − old`, and deleting it
changes the balance by exactly `−old`, the delta computed against the true
prior persisted amount. -/
theorem edit_delete_balance_delta (s : LedgerState) (coll : PaymentColl)
    (pid : String) (newAmount oldAmount b : ℚ) (newMonth : Option String)
    (hb : s.balance = some b) (hpos : 0 < newAmount)
    (hold : oldAmountOf s coll pid = some oldAmount) :
    (savePayment s coll pid newAmount newMonth).balance
        = some (b + (newAmount - oldAmount))
      ∧ (deletePayment s coll pid).balance = some (b - oldAmount) := by
  cases coll with
  | monthlyPayments =>
    simp only [oldAmountOf] at hold
    obtain ⟨old, hf, ha⟩ := Option.map_eq_some'.mp hold
    subst ha
    constructor
    · simp [savePayment, hb, hf, not_le.mpr hpos]
    · simp [deletePayment, hb, hf]
  | eventPayments =>
    simp only [oldAmountOf] at hold
    obtain ⟨old, hf, ha⟩ := Option.map_eq_some'.mp hold
    subst ha
    constructor
    · simp [savePayment, hb, hf, not_le.mpr hpos]
    · simp [deletePayment, hb, hf]

set_option maxRecDepth 8000 in
/-- Witness for C5: editing the 200 monthly payment to 350 credits 150;
deleting it debits 200. -/
theorem edit_delete_balance_delta_witness :
    (savePayment cascadeState PaymentColl.monthlyPayments "p1" 350
        (some "2024-02")).balance = some (500 + (350 - 200))
      ∧ (deletePayment cascadeState PaymentColl.monthlyPayments "p1").balance
          = some (500 - 200) :=
  edit_delete_balance_delta cascadeState PaymentColl.monthlyPayments "p1"
    350 200 500 (some "2024-02") (by with_unfolding_all decide)
    (by norm_num) (by with_unfolding_all decide)

/-! ### C6: expense ceiling -/

/-- A store holding only a balance of 1000. -/
def expenseState : LedgerState :=
  { initState 0 with balance := some 1000 }

/-- C6.  Expense creation rejects, with no state mutated, any amount
exceeding the current balance; an accepted expense debits the balance and
appends the record; an expense equal to the whole balance leaves balance 0.
The validation is the same for monthly and event expenses. -/
theorem expense_balance_ceiling (s : LedgerState) (eid : String)
    (etype : ExpenseType) (selectedEvent description : String) (amount b : ℚ)
    (pm : PaidThrough) (now : String) (hb : s.balance = some b) :
    (amount > b →
        handleExpenseSubmit s eid etype selectedEvent description amount pm now
          = s)
      ∧ (description.trim ≠ "" →
          ¬(etype = ExpenseType.event ∧ selectedEvent = "") →
          0 < amount → amount ≤ b →
          (handleExpenseSubmit s eid etype selectedEvent description amount pm
              now).balance = some (b - amount)
            ∧ (handleExpenseSubmit s eid etype selectedEvent description amount
                pm now).expenses
              = s.expenses ++ [⟨eid, etype,
                  if etype = ExpenseType.event then some selectedEvent else none,
                  description.trim, amount, now, pm⟩])
      ∧ (description.trim ≠ "" →
          ¬(etype = ExpenseType.event ∧ selectedEvent = "") →
          0 < amount → amount = b →
          (handleExpenseSubmit s eid etype selectedEvent description amount pm
              now).balance = some 0) := by
  refine ⟨?_, ?_, ?_⟩
  · intro hgt
    have hgt2 : amount > s.balance.getD 0 := by
      rw [hb]
      simpa using hgt
    simp only [handleExpenseSubmit]
    split_ifs <;> rfl
  · intro hd hev hpos hle
    have hng : ¬ amount > b := not_lt.mpr hle
    simp only [handleExpenseSubmit, hb, Option.getD_some, if_neg hd, if_neg hev,
      if_neg (not_le.mpr hpos), if_neg hng, Option.map_some']
    exact ⟨trivial, trivial⟩
  · intro hd hev hpos heq
    have hng : ¬ amount > b := not_lt.mpr (le_of_eq heq)
    simp only [handleExpenseSubmit, hb, Option.getD_some, if_neg hd, if_neg hev,
      if_neg (not_le.mpr hpos), if_neg hng, Option.map_some']
    simp [heq]

set_option maxRecDepth 8000 in
/-- Witness for C6: with balance 1000, an expense of 1500 is rejected and
one of 1000 leaves balance 0. -/
theorem expense_balance_ceiling_witness :
    handleExpenseSubmit expenseState "x1" ExpenseType.monthly "" "repair" 1500
        PaidThrough.cash "t1" = expenseState
      ∧ (handleExpenseSubmit expenseState "x2" ExpenseType.monthly "" "repair"
          1000 PaidThrough.cash "t1").balance = some 0 :=
  ⟨(expense_balance_ceiling expenseState "x1" ExpenseType.monthly "" "repair"
      1500 1000 PaidThrough.cash "t1" (by with_unfolding_all decide)).1
      (by norm_num),
    (expense_balance_ceiling expenseState "x2" ExpenseType.monthly "" "repair"
      1000 1000 PaidThrough.cash "t1" (by with_unfolding_all decide)).2.2
      (by with_unfolding_all decide) (by with_unfolding_all decide)
      (by norm_num) rfl⟩


/-! ### C7: ceiling cost allocation -/

/-- C7.  With a positive floor count, both the creation-time and the
edit-time computation equal `ceil(totalCost / floorCount)`, this ceiling
times the floor count covers the total cost, and `ceil(1000/7) = 143`. -/
theorem costPerFloor_ceiling (floorsCount : ℕ) (totalCost : ℚ)
    (h : 0 < floorsCount) :
    calculateCostPerFloor floorsCount totalCost
        = (⌈totalCost / (floorsCount : ℚ)⌉ : ℚ)
      ∧ saveEventCostPerFloor floorsCount totalCost
        = (⌈totalCost / (floorsCount : ℚ)⌉ : ℚ)
      ∧ calculateCostPerFloor floorsCount totalCost * floorsCount ≥ totalCost
      ∧ calculateCostPerFloor 7 1000 = 143 := by
  have hn : (0:ℚ) < (floorsCount:ℚ) := by exact_mod_cast h
  have hne : floorsCount ≠ 0 := Nat.pos_iff_ne_zero.mp h
  have hc : calculateCostPerFloor floorsCount totalCost
      = (⌈totalCost / (floorsCount : ℚ)⌉ : ℚ) := by
    simp [calculateCostPerFloor, hne]
  refine ⟨hc, rfl, ?_, by with_unfolding_all decide⟩
  rw [hc]
  have h1 : totalCost / (floorsCount:ℚ) ≤ (⌈totalCost / (floorsCount:ℚ)⌉ : ℚ) :=
    Int.le_ceil _
  calc totalCost = totalCost / (floorsCount:ℚ) * (floorsCount:ℚ) := by
        field_simp
    _ ≤ (⌈totalCost / (floorsCount:ℚ)⌉ : ℚ) * (floorsCount:ℚ) :=
        mul_le_mul_of_nonneg_right h1 hn.le

/-- Witness for C7 at `totalCost = 1000`, `floorCount = 7`. -/
theorem costPerFloor_ceiling_witness :
    (0:ℕ) < 7 ∧ calculateCostPerFloor 7 1000 = 143 :=
  ⟨by norm_num, (costPerFloor_ceiling 7 1000 (by norm_num)).2.2.2⟩

/-! ### C8: missing balance document -/

/-- A store whose `system/balance` document does not exist. -/
def noBalanceState : LedgerState :=
  { initState 500 with balance := none }

/-- C8 counterexample.  With the balance document missing, a monthly
payment of 100 persists its record (0 records grow to 1) while the balance
document is still missing afterwards: the operation neither wrote a balance
document equal to the record's amount nor failed as a whole. -/
theorem missing_balance_counterexample :
    (handlePaymentSubmitMonthly noBalanceState "p1" "f1" "2024-01" 100
        "t1").monthlyPayments.length = 1
      ∧ noBalanceState.monthlyPayments.length = 0
      ∧ (handlePaymentSubmitMonthly noBalanceState "p1" "f1" "2024-01" 100
          "t1").balance = none := by
  with_unfolding_all decide

/-- C8 amended.  When the balance document is missing, payment creation
(monthly and event) still persists the record and skips the balance write
entirely, leaving no balance document; expense creation, whose validation
reads the missing balance as 0, rejects every positive amount outright with
nothing persisted. -/
theorem missing_balance_skips_update (s : LedgerState)
    (pid floorId month eventId eid selectedEvent description now : String)
    (etype : ExpenseType) (pm : PaidThrough) (amount : ℚ)
    (hnone : s.balance = none) :
    ((handlePaymentSubmitMonthly s pid floorId month amount now).balance = none)
      ∧ ((handlePaymentSubmitEvent s pid eventId floorId amount now).balance
          = none)
      ∧ (floorId ≠ "" → 0 < amount → amount ≤ s.monthlyRequired →
          (handlePaymentSubmitMonthly s pid floorId month amount
              now).monthlyPayments
            = s.monthlyPayments ++ [⟨pid, floorId, month, amount, now,
                s.monthlyRequired - amount,
                decide (s.monthlyRequired - amount ≤ 0)⟩])
      ∧ (0 < amount →
          handleExpenseSubmit s eid etype selectedEvent description amount pm now
            = s) := by
  refine ⟨?_, ?_, ?_, ?_⟩
  · simp only [handlePaymentSubmitMonthly]
    split_ifs <;> simp [hnone]
  · simp only [handlePaymentSubmitEvent]
    split_ifs <;> simp [hnone]
  · intro hf hpos hle
    simp only [handlePaymentSubmitMonthly, if_neg hf, if_neg (not_le.mpr hpos),
      if_neg (not_lt.mpr hle)]
  · intro hpos
    have hgt : amount > s.balance.getD 0 := by
      rw [hnone]
      simpa using hpos
    simp only [handleExpenseSubmit]
    split_ifs <;> rfl

/-- Witness for the amended C8 at a concrete store with no balance
document. -/
theorem missing_balance_skips_update_witness :
    (handlePaymentSubmitMonthly noBalanceState "p1" "f1" "2024-01" 100
        "t1").balance = none
      ∧ (handlePaymentSubmitMonthly noBalanceState "p1" "f1" "2024-01" 100
          "t1").monthlyPayments
        = noBalanceState.monthlyPayments ++ [⟨"p1", "f1", "2024-01", 100, "t1",
            noBalanceState.monthlyRequired - 100,
            decide (noBalanceState.monthlyRequired - 100 ≤ 0)⟩]
      ∧ handleExpenseSubmit noBalanceState "x1" ExpenseType.monthly "" "water"
          100 PaidThrough.cash "t1" = noBalanceState :=
  ⟨(missing_balance_skips_update noBalanceState "p1" "f1" "2024-01" "" "x1" ""
      "water" "t1" ExpenseType.monthly PaidThrough.cash 100 rfl).1,
    (missing_balance_skips_update noBalanceState "p1" "f1" "2024-01" "" "x1" ""
      "water" "t1" ExpenseType.monthly PaidThrough.cash 100 rfl).2.2.1
      (by with_unfolding_all decide) (by norm_num)
      (by with_unfolding_all decide),
    (missing_balance_skips_update noBalanceState "p1" "f1" "2024-01" "" "x1" ""
      "water" "t1" ExpenseType.monthly PaidThrough.cash 100 rfl).2.2.2
      (by norm_num)⟩

/-! ### C10: zero-floor event creation -/

/-- C10.  With an empty floors collection the cost computation returns 0
without dividing, and a created event (when the field validation passes)
is stored with `costPerFloor = 0`. -/
theorem zero_floors_costPerFloor (s : LedgerState)
    (eid eventName description date : String) (totalCost : ℚ)
    (hf : s.floors = []) :
    calculateCostPerFloor s.floors.length totalCost = 0
      ∧ ((handleCreateEvent s eid eventName description totalCost date).events
            = s.events
          ∨ (handleCreateEvent s eid eventName description totalCost date).events
            = s.events ++
              [⟨eid, eventName.trim, description.trim, totalCost, 0, date,
                "open"⟩]) := by
  have h0 : calculateCostPerFloor s.floors.length totalCost = 0 := by
    simp [calculateCostPerFloor, hf]
  refine ⟨h0, ?_⟩
  simp only [handleCreateEvent]
  split_ifs with h1 h2
  · exact Or.inl rfl
  · exact Or.inl rfl
  · right
    rw [h0]

/-- Witness for C10 on the empty store. -/
theorem zero_floors_costPerFloor_witness :
    calculateCostPerFloor (initState 500).floors.length 1000 = 0
      ∧ ((handleCreateEvent (initState 500) "ev" "n" "d" 1000 "2024-01").events
            = (initState 500).events
          ∨ (handleCreateEvent (initState 500) "ev" "n" "d" 1000
              "2024-01").events
            = (initState 500).events ++
              [⟨"ev", "n".trim, "d".trim, 1000, 0, "2024-01", "open"⟩]) :=
  zero_floors_costPerFloor (initState 500) "ev" "n" "d" "2024-01" 1000 rfl

/-! ### C9: payment edit frame -/

/-- C9.  A payment edit changes only `amountPaid` (and, for monthly
payments, `month`) on the addressed record plus the stored balance; the
record's `remainingAmount`, `isComplete`, `paymentDate`, `floorId` and
`eventId` fields, every other record, and the other collections are left
unchanged, and `remainingAmount`/`isComplete` are not recomputed. -/
theorem savePayment_frame (s : LedgerState) (pid qid m2 : String)
    (newAmount b : ℚ) (newMonth : Option String)
    (x : MonthlyPayment) (a c : List MonthlyPayment)
    (y : EventPayment) (a2 c2 : List EventPayment)
    (hb : s.balance = some b) (hpos : 0 < newAmount)
    (hmp : s.monthlyPayments = a ++ x :: c) (hx : x.id = pid)
    (ha : ∀ z ∈ a, z.id ≠ pid)
    (hep : s.eventPayments = a2 ++ y :: c2) (hy : y.id = qid)
    (ha2 : ∀ z ∈ a2, z.id ≠ qid) :
    ((savePayment s PaymentColl.monthlyPayments pid newAmount
          (some m2)).monthlyPayments
        = a ++ { x with amountPaid := newAmount, month := m2 } :: c
      ∧ (savePayment s PaymentColl.monthlyPayments pid newAmount
          (some m2)).eventPayments = s.eventPayments
      ∧ (savePayment s PaymentColl.monthlyPayments pid newAmount
          (some m2)).expenses = s.expenses
      ∧ (savePayment s PaymentColl.monthlyPayments pid newAmount
          (some m2)).events = s.events
      ∧ (savePayment s PaymentColl.monthlyPayments pid newAmount
          (some m2)).balance = some (b + (newAmount - x.amountPaid)))
    ∧ ((savePayment s PaymentColl.eventPayments qid newAmount
          newMonth).eventPayments
        = a2 ++ { y with amountPaid := newAmount } :: c2
      ∧ (savePayment s PaymentColl.eventPayments qid newAmount
          newMonth).monthlyPayments = s.monthlyPayments
      ∧ (savePayment s PaymentColl.eventPayments qid newAmount
          newMonth).expenses = s.expenses
      ∧ (savePayment s PaymentColl.eventPayments qid newAmount
          newMonth).events = s.events
      ∧ (savePayment s PaymentColl.eventPayments qid newAmount
          newMonth).balance = some (b + (newAmount - y.amountPaid))) := by
  have hfm : s.monthlyPayments.find? (fun p => p.id == pid) = some x := by
    rw [hmp]
    exact find?_append_cons _ a x c
      (fun z hz => by simp [ha z hz]) (by simp [hx])
  have hfe : s.eventPayments.find? (fun p => p.id == qid) = some y := by
    rw [hep]
    exact find?_append_cons _ a2 y c2
      (fun z hz => by simp [ha2 z hz]) (by simp [hy])
  constructor
  · simp only [savePayment, if_neg (not_le.mpr hpos), hb, hfm]
    refine ⟨?_, trivial, trivial, trivial, trivial⟩
    rw [hmp, updateFirst_append_cons _ _ a x c
      (fun z hz => by simp [ha z hz]) (by simp [hx])]
  · simp only [savePayment, if_neg (not_le.mpr hpos), hb, hfe]
    refine ⟨?_, trivial, trivial, trivial, trivial⟩
    rw [hep, updateFirst_append_cons _ _ a2 y c2
      (fun z hz => by simp [ha2 z hz]) (by simp [hy])]

set_option maxRecDepth 8000 in
/-- Witness for C9: editing the monthly payment `p1` to 350 with a new
month, and the event payment `q1` to 350, in the concrete store. -/
theorem savePayment_frame_witness :
    ((savePayment cascadeState PaymentColl.monthlyPayments "p1" 350
          (some "2024-02")).monthlyPayments
        = [] ++ { (⟨"p1", "fl1", "2024-01", 200, "t0", 300, false⟩ : MonthlyPayment) with
              amountPaid := 350, month := "2024-02" } :: []
      ∧ (savePayment cascadeState PaymentColl.monthlyPayments "p1" 350
          (some "2024-02")).eventPayments = cascadeState.eventPayments
      ∧ (savePayment cascadeState PaymentColl.monthlyPayments "p1" 350
          (some "2024-02")).expenses = cascadeState.expenses
      ∧ (savePayment cascadeState PaymentColl.monthlyPayments "p1" 350
          (some "2024-02")).events = cascadeState.events
      ∧ (savePayment cascadeState PaymentColl.monthlyPayments "p1" 350
          (some "2024-02")).balance = some (500 + (350 - 200)))
    ∧ ((savePayment cascadeState PaymentColl.eventPayments "q1" 350
          none).eventPayments
        = [] ++ { (⟨"q1", "ev1", "fl1", 400, "t1", 0, true⟩ : EventPayment) with
              amountPaid := 350 }
            :: [⟨"q2", "ev2", "fl1", 100, "t2", 200, false⟩]
      ∧ (savePayment cascadeState PaymentColl.eventPayments "q1" 350
          none).monthlyPayments = cascadeState.monthlyPayments
      ∧ (savePayment cascadeState PaymentColl.eventPayments "q1" 350
          none).expenses = cascadeState.expenses
      ∧ (savePayment cascadeState PaymentColl.eventPayments "q1" 350
          none).events = cascadeState.events
      ∧ (savePayment cascadeState PaymentColl.eventPayments "q1" 350
          none).balance = some (500 + (350 - 400))) :=
  savePayment_frame cascadeState "p1" "q1" "2024-02" 350 500 none
    ⟨"p1", "fl1", "2024-01", 200, "t0", 300, false⟩ [] []
    ⟨"q1", "ev1", "fl1", 400, "t1", 0, true⟩ []
    [⟨"q2", "ev2", "fl1", 100, "t2", 200, false⟩]
    (by with_unfolding_all decide) (by norm_num) rfl rfl (by simp)
    rfl rfl (by simp)

end Borg
